import Mathlib

/-!
Shallow embedding of the phosphor-plugins lifecycle engine
(src/extension.ts and src/plugin.ts) and proofs of the specification
claims about it.

JavaScript conventions modelled explicitly:
  * optional string fields are `Option String`; `none` is `undefined`
    (a missing property), and JS truthiness of such a field is
    `jsTruthy` (both `undefined` and the empty string are falsy);
  * string coercion of `undefined` (as in `name + '/' + opts.module`
    when `opts.module` is `undefined`) yields the string "undefined";
  * asynchronous effects (`System.import`, invoking a loader /
    initializer / receiver) are requests answered by an environment
    `SystemEnv`; a rejected promise is `Except.error`.
-/

/-- Truthiness of a JS string-or-undefined value: `undefined` and the
empty string are falsy. -/
def jsTruthy : Option String → Bool
  | none => false
  | some s => !(s == "")

/-- JS string coercion of a string-or-undefined value, as performed by
the `+` operator: `undefined` becomes the string "undefined". -/
def jsStr : Option String → String
  | none => "undefined"
  | some s => s

/-- An opaque JS runtime value (a resolved module export, loader result,
initializer result, receiver result or parsed data file).  The engine
only ever inspects whether the value has a `dispose` member, so that is
the one attribute we track. -/
structure JSValue where
  tag : String
  hasDispose : Bool
deriving DecidableEq

/-- An asynchronous effect issued by the engine: a `System.import` of a
path, or the invocation of a named loader / initializer / receiver
obtained from a resolved module. -/
inductive Request where
  | imp (path : String)
  | callLoader (modulePath loaderName : String)
  | callInitializer (modulePath initializerName : String)
  | callReceiver (receiverName : String)
deriving DecidableEq

/-- The environment answering asynchronous requests.  `Except.error`
models a rejected promise (a Load error). -/
def SystemEnv : Type := Request → Except String JSValue

deriving instance DecidableEq for Except

/-- `IExtensionJSON` from src/extension.ts. -/
structure IExtensionJSON where
  point : String
  loader : Option String := none
  data : Option String := none
  config : Option JSValue := none
  module : Option String := none
  initializer : Option String := none
deriving DecidableEq

/-- `IExtensionPointJSON` from src/extension.ts. -/
structure IExtensionPointJSON where
  id : String
  receiver : String
  module : Option String := none
  initializer : Option String := none
deriving DecidableEq

/-- `IExtension<T>` from src/extension.ts: the contribution payload
handed to a receiver.  `none` models the `void 0` / `null` fields. -/
structure Contribution where
  object : Option JSValue := none
  data : Option JSValue := none
  config : Option JSValue := none
deriving DecidableEq

/-- The mutable state of an `Extension` instance (class `Extension` in
src/extension.ts).  `extension = none` models `this._extension = null`. -/
structure ExtensionState where
  point : String
  loader : Option String
  module : Option String
  data : Option String
  initializer : Option String
  extension : Option Contribution
  disposables : List JSValue
deriving DecidableEq

/-- The `Extension` constructor. -/
def ExtensionState.create (options : IExtensionJSON) : ExtensionState where
  point := options.point
  loader := options.loader
  module := options.module
  data := options.data
  initializer := options.initializer
  extension := some { object := none, data := none, config := options.config }
  disposables := []

/-- Outcome of running `Extension.load()` against an environment:
`issuedFirst` is the list of requests issued synchronously when `load`
is called (both `_loadData()` and `_loadObject()` run their synchronous
prefix, up to their first `System.import`, before `Promise.all` starts
waiting); `dataTrace` / `objTrace` are the full request traces of the
two branches; `result` is the settled promise value. -/
structure LoadOutcome where
  issuedFirst : List Request
  dataTrace : List Request
  objTrace : List Request
  result : Except String (Option Contribution)
  state : ExtensionState
deriving DecidableEq

/-- `Extension._loadData` from src/extension.ts: no-op when `_data` is
falsy, otherwise `System.import(this._data)` followed by the write
`this._extension.data = data` (a TypeError when `_extension` is null). -/
def ExtensionState.loadDataRun (env : SystemEnv) (e : ExtensionState) :
    List Request × Except String Unit × ExtensionState :=
  if jsTruthy e.data then
    let r := Request.imp (jsStr e.data)
    match env r with
    | .error m => ([r], .error m, e)
    | .ok v =>
      match e.extension with
      | none => ([r], .error "TypeError: cannot set data of null", e)
      | some c => ([r], .ok (), { e with extension := some { c with data := some v } })
  else ([], .ok (), e)

/-- `Extension._loadObject` from src/extension.ts: no-op when `_loader`
is falsy, otherwise `System.import(this._module)`, then invocation of
the named loader, then the write `this._extension.object = result`. -/
def ExtensionState.loadObjectRun (env : SystemEnv) (e : ExtensionState) :
    List Request × Except String Unit × ExtensionState :=
  if jsTruthy e.loader then
    let r1 := Request.imp (jsStr e.module)
    match env r1 with
    | .error m => ([r1], .error m, e)
    | .ok _ =>
      let r2 := Request.callLoader (jsStr e.module) (jsStr e.loader)
      match env r2 with
      | .error m => ([r1, r2], .error m, e)
      | .ok v =>
        match e.extension with
        | none => ([r1, r2], .error "TypeError: cannot set object of null", e)
        | some c => ([r1, r2], .ok (), { e with extension := some { c with object := some v } })
  else ([], .ok (), e)

/-- `Extension.load()` from src/extension.ts:
`Promise.all([this._loadData(), this._loadObject()]).then(() => this._extension)`.
Both branch functions are invoked synchronously before `Promise.all`
waits, so each branch's first `System.import` is issued before the other
branch has received any response; `issuedFirst` records exactly those
eagerly issued requests. -/
def ExtensionState.loadRun (env : SystemEnv) (e : ExtensionState) : LoadOutcome :=
  let first :=
    (if jsTruthy e.data then [Request.imp (jsStr e.data)] else []) ++
    (if jsTruthy e.loader then [Request.imp (jsStr e.module)] else [])
  let d := e.loadDataRun env
  let o := d.2.2.loadObjectRun env
  let res : Except String (Option Contribution) :=
    match d.2.1 with
    | .error m => .error m
    | .ok _ =>
      match o.2.1 with
      | .error m => .error m
      | .ok _ => .ok o.2.2.extension
  { issuedFirst := first, dataTrace := d.1, objTrace := o.1, result := res, state := o.2.2 }

/-- `Extension.initialize()` from src/extension.ts: its first statement
is `this._extension = null`; then, when an initializer is configured,
`System.import(this._module)`, invocation of the named initializer, and
collection of a returned disposable. -/
def ExtensionState.initializeExt (env : SystemEnv) (e : ExtensionState) :
    List Request × Except String Unit × ExtensionState :=
  let e := { e with extension := none }
  if jsTruthy e.initializer then
    let r1 := Request.imp (jsStr e.module)
    match env r1 with
    | .error m => ([r1], .error m, e)
    | .ok _ =>
      let r2 := Request.callInitializer (jsStr e.module) (jsStr e.initializer)
      match env r2 with
      | .error m => ([r1, r2], .error m, e)
      | .ok v =>
        ([r1, r2], .ok (),
          if v.hasDispose then { e with disposables := e.disposables ++ [v] } else e)
  else ([], .ok (), e)

/-- `Extension.dispose()` from src/extension.ts. -/
def ExtensionState.dispose (e : ExtensionState) : ExtensionState :=
  { e with extension := none, disposables := [] }

/-- The mutable state of an `ExtensionPoint` instance (class
`ExtensionPoint` in src/extension.ts).  `initCompleted` counts the runs
of the configured initializer function that demonstrably completed
(instrumentation used to state the claims; the code stores no such
counter). -/
structure EPState where
  id : String
  receiver : String
  module : Option String
  initializer : Option String
  initialized : Bool
  receiverFunc : Option String
  disposables : List JSValue
  initCompleted : Nat
deriving DecidableEq

/-- The `ExtensionPoint` constructor. -/
def EPState.create (options : IExtensionPointJSON) : EPState where
  id := options.id
  receiver := options.receiver
  module := options.module
  initializer := options.initializer
  initialized := false
  receiverFunc := none
  disposables := []
  initCompleted := 0

/-- `ExtensionPoint._initialize` from src/extension.ts.  Note the order
faithful to the source: when an initializer is configured and the point
is not yet initialized, `this._initialized = true` is set *before* the
`System.import` / initializer invocation, so the flag stays set even
when either of those fails. -/
def EPState.initializePoint (env : SystemEnv) (ep : EPState) :
    Except String Unit × EPState :=
  if ep.initialized || !(jsTruthy ep.initializer) then
    (.ok (), { ep with initialized := true })
  else
    let ep := { ep with initialized := true }
    match env (Request.imp (jsStr ep.module)) with
    | .error m => (.error m, ep)
    | .ok _ =>
      match env (Request.callInitializer (jsStr ep.module) (jsStr ep.initializer)) with
      | .error m => (.error m, ep)
      | .ok v =>
        let ep := if v.hasDispose then { ep with disposables := ep.disposables ++ [v] } else ep
        (.ok (), { ep with initCompleted := ep.initCompleted + 1 })

/-- `ExtensionPoint._load` from src/extension.ts:
`System.import(this._module)`, bind the receiver, then `_initialize`. -/
def EPState.loadPoint (env : SystemEnv) (ep : EPState) :
    Except String Unit × EPState :=
  match env (Request.imp (jsStr ep.module)) with
  | .error m => (.error m, ep)
  | .ok _ => EPState.initializePoint env { ep with receiverFunc := some ep.receiver }

/-- `ExtensionPoint._connectExtension` from src/extension.ts: run
`extension.load()`, invoke the bound receiver with the result
(collecting a returned disposable), then `extension.initialize()`. -/
def EPState.connectExtension (env : SystemEnv) (ep : EPState) (e : ExtensionState) :
    Except String Unit × EPState × ExtensionState :=
  let out := e.loadRun env
  match out.result with
  | .error m => (.error m, ep, out.state)
  | .ok _ =>
    match ep.receiverFunc with
    | none => (.error "TypeError: receiver is not a function", ep, out.state)
    | some rname =>
      match env (Request.callReceiver rname) with
      | .error m => (.error m, ep, out.state)
      | .ok d =>
        let ep := if d.hasDispose then { ep with disposables := ep.disposables ++ [d] } else ep
        let ini := out.state.initializeExt env
        (ini.2.1, ep, ini.2.2)

/-- `ExtensionPoint.connect` from src/extension.ts: when the point is
not yet initialized, `_load().then(() => this._connectExtension(ext))`,
otherwise `_connectExtension(ext)` directly. -/
def EPState.connect (env : SystemEnv) (ep : EPState) (e : ExtensionState) :
    Except String Unit × EPState × ExtensionState :=
  if !ep.initialized then
    match EPState.loadPoint env ep with
    | (.error m, ep) => (.error m, ep, e)
    | (.ok _, ep) => EPState.connectExtension env ep e
  else EPState.connectExtension env ep e

/-! ## The registry (module-level maps of src/extension.ts)

`allExtensionPoints : Map<string, ExtensionPoint>` and
`allExtensions : Map<string, Extension[]>` together with the exported
functions `loadExtensionPoint` and `loadExtension`.  Maps are
association lists with first-match lookup.  The connection machinery
itself (`point.connect(ext)`) is asynchronous; at registry level we
record each *invocation* of `connect` in an ordered event log and give
every constructed `Extension` a token from a counter so "connected
exactly once" is expressible. -/

/-- Replace the binding for `k` (or append it), i.e. `Map.set`. -/
def mapSet (k : String) (v : α) : List (String × α) → List (String × α)
  | [] => [(k, v)]
  | (k₀, v₀) :: rest => if k₀ = k then (k, v) :: rest else (k₀, v₀) :: mapSet k v rest

/-- Remove the binding for `k`, i.e. `Map.delete`. -/
def mapDelete (k : String) : List (String × α) → List (String × α)
  | [] => []
  | (k₀, v₀) :: rest => if k₀ = k then rest else (k₀, v₀) :: mapDelete k rest

/-- The two module-level registries, the connect-invocation log, and the
counter handing out extension tokens. -/
structure RegState where
  points : List (String × EPState)
  pending : List (String × List Nat)
  connectLog : List (String × Nat)
  nextExt : Nat
deriving DecidableEq

/-- The empty registries at module load time. -/
def RegState.start : RegState := { points := [], pending := [], connectLog := [], nextExt := 0 }

/-- `loadExtensionPoint` from src/extension.ts: construct the point,
insert it into `allExtensionPoints`, and when a pending queue exists for
its id, delete the queue and call `point.connect` on every buffered
extension in original arrival order. -/
def RegState.loadExtensionPoint (config : IExtensionPointJSON) (s : RegState) : RegState :=
  let s := { s with points := mapSet config.id (EPState.create config) s.points }
  match s.pending.lookup config.id with
  | none => s
  | some exts =>
    { s with
      pending := mapDelete config.id s.pending
      connectLog := s.connectLog ++ exts.map (fun t => (config.id, t)) }

/-- `loadExtension` from src/extension.ts: construct the extension;
when the target point is registered call `point.connect` immediately
(the returned future is the pending connect operation, second component
`false`); otherwise append the extension to the pending queue and return
an already-resolved future (second component `true`). -/
def RegState.loadExtension (config : IExtensionJSON) (s : RegState) : RegState × Bool :=
  let t := s.nextExt
  let s := { s with nextExt := t + 1 }
  match s.points.lookup config.point with
  | some _ => ({ s with connectLog := s.connectLog ++ [(config.point, t)] }, false)
  | none =>
    let q := (s.pending.lookup config.point).getD []
    ({ s with pending := mapSet config.point (q ++ [t]) s.pending }, true)


/-! ## Plugin (class `Plugin` in src/plugin.ts) -/

/-- `IPluginJSON` from src/plugin.ts. -/
structure IPluginJSON where
  module : Option String := none
  initializer : Option String := none
  extensionPoints : Option (List IExtensionPointJSON) := none
  extensions : Option (List IExtensionJSON) := none
deriving DecidableEq

/-- The mutable state of a `Plugin` instance.  `initRuns` counts
invocations of the plugin-level initializer function (instrumentation
used to state the claims). -/
structure PluginState where
  name : String
  module : String
  initializer : Option String
  extensionPoints : Option (List IExtensionPointJSON)
  extensions : Option (List IExtensionJSON)
  disposables : List JSValue
  initRuns : Nat
  disposed : Bool
deriving DecidableEq

/-- The `Plugin` constructor: `this._module = name + '/' + options.module`
(JS string coercion when `options.module` is `undefined`), and the
declared config lists are shallow-copied with `slice()`. -/
def PluginState.create (name : String) (options : IPluginJSON) : PluginState where
  name := name
  module := name ++ "/" ++ jsStr options.module
  initializer := options.initializer
  extensionPoints := options.extensionPoints
  extensions := options.extensions
  disposables := []
  initRuns := 0
  disposed := false

/-- The module-path rewrite `_loadExtensionPoint` performs on a point
config before registering it:
`if (point.hasOwnProperty('module') || (point.module)) point.module = this._name + '/' + point.module; else point.module = this._module;`.
The config object is mutated in place, so the plugin's stored list sees
the rewrite. -/
def PluginState.pointConfigMutate (p : PluginState) (point : IExtensionPointJSON) :
    IExtensionPointJSON :=
  if point.module.isSome || jsTruthy point.module then
    { point with module := some (p.name ++ "/" ++ jsStr point.module) }
  else
    { point with module := some p.module }

/-- The module- and data-path rewrites `_loadExtension` performs on an
extension config before registering it. -/
def PluginState.extConfigMutate (p : PluginState) (ext : IExtensionJSON) :
    IExtensionJSON :=
  let ext :=
    if ext.module.isSome || jsTruthy ext.module then
      { ext with module := some (p.name ++ "/" ++ jsStr ext.module) }
    else
      { ext with module := some p.module }
  if ext.data.isSome || jsTruthy ext.data then
    { ext with data := some (p.name ++ "/" ++ jsStr ext.data) }
  else ext

/-- A registration performed by a plugin: a call of the registry
function `loadExtensionPoint` or `loadExtension` with the (rewritten)
config. -/
inductive RegEvent where
  | regPoint (config : IExtensionPointJSON)
  | regExt (config : IExtensionJSON)
deriving DecidableEq

/-- Environment giving each registration's settled outcome (`ok` with
the constructed point / extension, or a rejection). -/
def RegEnv : Type := RegEvent → Except String JSValue

/-- `Plugin.load` from src/plugin.ts: push `_loadExtensionPoint` /
`_loadExtension` promises for every declared config, then
`Promise.all(promises).then(() => this._initialize.bind(this))`.

Faithful to the source in two load-bearing respects:
  * each per-entry promise ends in `.catch((error) => console.error(error))`,
    so a rejected registration is swallowed and the `Promise.all` always
    resolves (`Except.ok`);
  * the continuation evaluates `this._initialize.bind(this)` — it
    *creates* the bound function but never invokes it, so `_initialize`
    does not run, the config lists are not cleared (they only receive
    the in-place module-path rewrites) and the plugin-level initializer
    is not called. -/
def PluginState.load (env : RegEnv) (p : PluginState) :
    PluginState × List RegEvent × Except String Unit :=
  let ptCfgs := (p.extensionPoints.getD []).map p.pointConfigMutate
  let exCfgs := (p.extensions.getD []).map p.extConfigMutate
  let events := ptCfgs.map RegEvent.regPoint ++ exCfgs.map RegEvent.regExt
  let newDisp := events.filterMap (fun ev =>
    match env ev with
    | .error _ => none
    | .ok v => if v.hasDispose then some v else none)
  let p := { p with
    extensionPoints := p.extensionPoints.map (fun _ => ptCfgs)
    extensions := p.extensions.map (fun _ => exCfgs)
    disposables := p.disposables ++ newDisp }
  (p, events, .ok ())

/-- `Plugin._initialize` from src/plugin.ts (present in the source but,
per `PluginState.load`, never reached from `load`): clear both config
lists, then when an initializer is configured import the plugin module,
invoke the initializer and collect a returned disposable; its own
`.catch` swallows failures. -/
def PluginState.initializePlugin (env : SystemEnv) (p : PluginState) :
    Except String Unit × PluginState :=
  let p := { p with extensionPoints := some [], extensions := some [] }
  if jsTruthy p.initializer then
    match env (Request.imp p.module) with
    | .error _ => (.ok (), p)
    | .ok _ =>
      let p := { p with initRuns := p.initRuns + 1 }
      match env (Request.callInitializer p.module (jsStr p.initializer)) with
      | .error _ => (.ok (), p)
      | .ok v =>
        (.ok (), if v.hasDispose then { p with disposables := p.disposables ++ [v] } else p)
  else (.ok (), p)

/-- `Plugin.dispose` from src/plugin.ts. -/
def PluginState.dispose (p : PluginState) : PluginState :=
  { p with extensions := none, extensionPoints := none, disposables := [], disposed := true }

/-! ## Plugin manager (module-level state and functions of src/plugin.ts)

`availablePlugins` and `loadedPlugins` are plain `{ }` object literals,
so `availablePlugins[name]`, `loadedPlugins[name]` and the `in`
operator walk the prototype chain: when `name` has no own entry but is
a member name of `Object.prototype` (such as `toString`), the lookup
yields the inherited member — a truthy function (for `__proto__`, the
accessor yields `Object.prototype` itself, equally truthy) — and `in`
answers true.  The lookup model below keeps the three cases apart. -/

/-- The own property names of `Object.prototype` in a standard engine:
exactly the names at which a bare `{ }` object yields an inherited,
truthy value. -/
def protoMemberNames : List String :=
  ["constructor", "hasOwnProperty", "isPrototypeOf", "propertyIsEnumerable",
   "toLocaleString", "toString", "valueOf", "__proto__",
   "__defineGetter__", "__defineSetter__", "__lookupGetter__", "__lookupSetter__"]

/-- Result of the JS property read `obj[name]` on a plain object whose
own entries are the association list: an own entry, an inherited
`Object.prototype` member, or `undefined`. -/
inductive JsLookup (α : Type) where
  | own (v : α)
  | inherited (memberName : String)
  | missing
deriving DecidableEq

/-- The JS property read `obj[name]`: own entry first, then the
prototype chain. -/
def jsGetProp (m : List (String × α)) (k : String) : JsLookup α :=
  match m.lookup k with
  | some v => .own v
  | none => if protoMemberNames.contains k then .inherited k else .missing

/-- The JS `in` operator: true for own and inherited properties. -/
def jsHasProp (m : List (String × α)) (k : String) : Bool :=
  match jsGetProp m k with
  | .missing => false
  | _ => true

/-- A value stored in `loadedPlugins`: a Plugin, or the inherited
`Object.prototype` member that `loadPlugin` copies there when the name
had no own entry in `availablePlugins` (see `MgrState.loadPlugin`). -/
inductive PluginSlot where
  | plugin (p : PluginState)
  | protoFn (memberName : String)
deriving DecidableEq

/-- The two module-level plugin maps.  `availablePlugins` only ever
receives Plugins (from `addPackage`), while `loadedPlugins` can receive
whatever truthy value `availablePlugins[name]` produced. -/
structure MgrState where
  availablePlugins : List (String × PluginState)
  loadedPlugins : List (String × PluginSlot)
deriving DecidableEq

/-- `loadPlugin` from src/plugin.ts:

`var plugin = availablePlugins[name]; if (!plugin) throw Error('Plugin not in registry'); delete availablePlugins[name]; loadedPlugins[name] = plugin; return plugin.load();`

The guard throws only when the property read yields a falsy value, i.e.
when `name` is neither an own entry nor an `Object.prototype` member
name.  For an inherited member the code proceeds: the `delete` is a
no-op, the inherited value is stored into `loadedPlugins` (except at
`__proto__`, whose assignment sets the prototype instead of creating an
entry) and `plugin.load()` throws a TypeError, since the inherited
value has no `load` member. -/
def MgrState.loadPlugin (name : String) (env : RegEnv) (s : MgrState) :
    MgrState × Except String Unit :=
  match jsGetProp s.availablePlugins name with
  | .missing => (s, .error "Plugin not in registry")
  | .inherited k =>
    ({ availablePlugins := mapDelete name s.availablePlugins
       loadedPlugins :=
         if name == "__proto__" then s.loadedPlugins
         else mapSet name (.protoFn k) s.loadedPlugins },
     .error "TypeError: plugin.load is not a function")
  | .own plugin =>
    let s : MgrState :=
      { availablePlugins := mapDelete name s.availablePlugins
        loadedPlugins := mapSet name (.plugin plugin) s.loadedPlugins }
    let out := plugin.load env
    ({ s with loadedPlugins := mapSet name (.plugin out.1) s.loadedPlugins }, out.2.2)

/-- `unloadPlugin` from src/plugin.ts:
`var plugin = loadedPlugins[name]; if (plugin) plugin.dispose();`.
The no-op branch is taken only when the property read yields a falsy
value; a truthy non-Plugin (an inherited `Object.prototype` member, or
one previously stored by `loadPlugin`) makes `plugin.dispose()` throw a
TypeError. -/
def MgrState.unloadPlugin (name : String) (s : MgrState) :
    MgrState × Except String Unit :=
  match jsGetProp s.loadedPlugins name with
  | .missing => (s, .ok ())
  | .inherited _ => (s, .error "TypeError: plugin.dispose is not a function")
  | .own slot =>
    match slot with
    | .protoFn _ => (s, .error "TypeError: plugin.dispose is not a function")
    | .plugin p =>
      ({ s with loadedPlugins := mapSet name (.plugin p.dispose) s.loadedPlugins }, .ok ())

/-! ## Plugin discovery (`getPluginNames`, `addPackage` in src/plugin.ts) -/

/-- One entry of `System.npm`: package metadata with a `name` and a
`fileUrl`. -/
structure NpmEntry where
  name : String
  fileUrl : String
deriving DecidableEq

/-- The index positions at which `pat` occurs in `s`. -/
def strOccurrences (s pat : List Char) : List Nat :=
  (List.range (s.length + 1)).filter (fun i => pat.isPrefixOf (s.drop i))

/-- JS `String.prototype.indexOf` for a substring (−1 when absent). -/
def jsIndexOf (s pat : String) : Int :=
  match strOccurrences s.data pat.data with
  | [] => -1
  | i :: _ => (i : Int)

/-- JS `String.prototype.lastIndexOf` for a substring (−1 when absent). -/
def jsLastIndexOf (s pat : String) : Int :=
  match (strOccurrences s.data pat.data).getLast? with
  | none => -1
  | some i => (i : Int)

/-- `getPluginNames` from src/plugin.ts.  Faithful to the source,
including its use of the *global* binding `name` (the enclosing
function declares no local `name`, so the bare identifier resolves to
the ambient global — in a browser, `window.name`), here the parameter
`globalName`:

`if ((name in availablePlugins) || (name in loadedPlugins)) return;`

so the skip test never consults `obj.name`; the `in` operator also sees
inherited `Object.prototype` members (`jsHasProp`).  A package is then
listed when its `fileUrl` contains exactly one occurrence of
`node_modules` at a positive index. -/
def getPluginNames (globalName : String) (npm : List NpmEntry) (s : MgrState) :
    List String :=
  npm.filterMap (fun obj =>
    if jsHasProp s.availablePlugins globalName
        || jsHasProp s.loadedPlugins globalName then
      none
    else
      let index := jsIndexOf obj.fileUrl "node_modules"
      let lastIndex := jsLastIndexOf obj.fileUrl "node_modules"
      if 0 < index && index == lastIndex then some obj.name else none)

/-- The body of a `package.json` as consumed by `addPackage`: its
`main` entry and its optional `phosphor-plugin` declaration. -/
structure PackageConfig where
  main : Option String := none
  phosphorPlugin : Option IPluginJSON := none
deriving DecidableEq

/-- `addPackage` from src/plugin.ts: when the config declares
`phosphor-plugin`, default its `module` to `config.main` (JS `||`) and
assign `availablePlugins[name] = new Plugin(name, pconfig)` —
unconditionally replacing any Plugin already stored under `name`. -/
def addPackage (name : String) (config : PackageConfig)
    (available : List (String × PluginState)) : List (String × PluginState) :=
  match config.phosphorPlugin with
  | none => available
  | some pconfig =>
    let pconfig :=
      { pconfig with
        module := if jsTruthy pconfig.module then pconfig.module else config.main }
    mapSet name (PluginState.create name pconfig) available

/-! ## Interleaved `connect` calls on one extension point (src/extension.ts)

A small-step machine for concurrent `ExtensionPoint.connect` calls under
JavaScript's single-threaded cooperative scheduling.  Each `connect`
call is a task whose program counter marks the synchronous segment it
will run next; segments are atomic because control is only yielded at
`Promise` boundaries:

  * `entry`    — the synchronous body of `connect`: read
    `this._initialized`; when false enter `_load` and suspend on
    `System.import(this._module)`, otherwise proceed straight to
    `_connectExtension` (stage `doneT`; the receiver path never touches
    the initializer, so the machine does not track it further);
  * `loadWait` — the continuation after that import resolves: bind the
    receiver, then run the synchronous prefix of `_initialize`: test
    `this._initialized || !this._initializer` and set
    `this._initialized = true`, in one atomic segment; when the test
    passed the task is done, otherwise it suspends on the second
    `System.import`;
  * `initWait` — the continuation after the second import resolves:
    invoke the initializer function (counted by `initRuns`);
  * `doneT`    — the task no longer involves the initialization state.

`fail` steps model rejected imports: the suspended task aborts without
running its continuation. -/

/-- Program counter of one pending `connect` task. -/
inductive TPC where
  | entry
  | loadWait
  | initWait
  | doneT
deriving DecidableEq

/-- Shared state of one extension point under interleaved `connect`
calls: the `_initialized` flag, the number of initializer invocations,
and the pending tasks. -/
structure EPConc where
  initialized : Bool
  initRuns : Nat
  tasks : List TPC
deriving DecidableEq

/-- A scheduler action: a new `connect` call arrives, or the pending
asynchronous operation of one task at stage `pc` resolves (`fin`) or
rejects (`fail`). -/
inductive EPAct where
  | spawn
  | fin (pc : TPC)
  | fail (pc : TPC)
deriving DecidableEq

/-- Run the next synchronous segment of a task currently at `pc`
(present in `s.tasks`), for a point whose config declares an initializer
iff `hasInit`. -/
def EPConc.applyFin (hasInit : Bool) (s : EPConc) (pc : TPC) : EPConc :=
  match pc with
  | .entry =>
    if s.initialized then { s with tasks := s.tasks.erase .entry ++ [.doneT] }
    else { s with tasks := s.tasks.erase .entry ++ [.loadWait] }
  | .loadWait =>
    if s.initialized || !hasInit then
      { s with initialized := true, tasks := s.tasks.erase .loadWait ++ [.doneT] }
    else
      { s with initialized := true, tasks := s.tasks.erase .loadWait ++ [.initWait] }
  | .initWait =>
    { s with initRuns := s.initRuns + 1, tasks := s.tasks.erase .initWait ++ [.doneT] }
  | .doneT => s

/-- One scheduler step. -/
def EPConc.step (hasInit : Bool) (s : EPConc) : EPAct → EPConc
  | .spawn => { s with tasks := s.tasks ++ [.entry] }
  | .fin pc => if pc ∈ s.tasks then s.applyFin hasInit pc else s
  | .fail pc =>
    if pc ∈ s.tasks then
      match pc with
      | .loadWait => { s with tasks := s.tasks.erase .loadWait ++ [.doneT] }
      | .initWait => { s with tasks := s.tasks.erase .initWait ++ [.doneT] }
      | _ => s
    else s

/-- A fresh extension point with no pending `connect` calls. -/
def EPConc.start : EPConc := { initialized := false, initRuns := 0, tasks := [] }

/-- Run a whole schedule of arrivals, resolutions and rejections. -/
def EPConc.run (hasInit : Bool) (acts : List EPAct) : EPConc :=
  acts.foldl (EPConc.step hasInit) EPConc.start

/-- Pending initializer work of a point under interleaved connects:
completed initializer runs plus tasks currently holding the right to run
the initializer. -/
def EPConc.weight (s : EPConc) : Nat := s.initRuns + s.tasks.count TPC.initWait

/-- The once-only invariant of the `_initialized` flag discipline. -/
def EPConcInv (s : EPConc) : Prop :=
  s.weight ≤ 1 ∧ (s.initialized = false → s.weight = 0)

/-- Register `m` successive extensions with the same config, returning
the final registry state and each call's returned-future flag (`true` =
already-resolved future, the pending-queue branch). -/
def regExtSeq (config : IExtensionJSON) (m : Nat) (s : RegState) : RegState × List Bool :=
  match m with
  | 0 => (s, [])
  | Nat.succ m =>
    let r₁ := s.loadExtension config
    let r₂ := regExtSeq config m r₁.1
    (r₂.1, r₁.2 :: r₂.2)

/-- The schedule of claim C1: from the empty registries, register `k`
extensions targeting the point, then the point itself, then `j` more
extensions.  Returns the final registry state, the future flags of the
first `k` registrations and those of the last `j`. -/
def pointExtSchedule (pcfg : IExtensionPointJSON) (ecfg : IExtensionJSON)
    (k j : Nat) : RegState × List Bool × List Bool :=
  let r₁ := regExtSeq ecfg k RegState.start
  let s₂ := RegState.loadExtensionPoint pcfg r₁.1
  let r₃ := regExtSeq ecfg j s₂
  (r₃.1, r₁.2, r₃.2)

/-! ## Concrete fixtures used by witness and evaluation theorems -/

def regEnvOk : RegEnv := fun _ => .ok { tag := "obj", hasDispose := false }

def envAllOk : SystemEnv := fun _ => .ok { tag := "v", hasDispose := false }

def pluginFoo : PluginState := PluginState.create "foo"
  { module := some "main", initializer := some "init",
    extensionPoints := some [{ id := "foo:point", receiver := "recv" }],
    extensions := some [] }

def pluginBar : PluginState := PluginState.create "bar"
  { module := some "main", initializer := some "init",
    extensionPoints := some [{ id := "bar:point", receiver := "recv" }],
    extensions := none }

def epFixture : EPState := EPState.create
  { id := "p", receiver := "recv", module := some "mod", initializer := some "init" }

def envInitFails : SystemEnv := fun r =>
  match r with
  | Request.callInitializer _ _ => .error "boom"
  | _ => .ok { tag := "v", hasDispose := false }

def extFixture : ExtensionState := ExtensionState.create { point := "p" }

def mgrFixture : MgrState :=
  { availablePlugins := [("foo", PluginState.create "foo" { module := some "old" })]
    loadedPlugins := [] }

def npmFixture : List NpmEntry :=
  [{ name := "foo", fileUrl := "/app/node_modules/foo/package.json" }]

/-- A manager state with one loaded-but-unavailable plugin (a
double-load scenario for name x) and one available-but-unloaded plugin
(an unload-before-load scenario for name y). -/
def mgrMixed : MgrState :=
  { availablePlugins := [("y", PluginState.create "y" { module := some "main" })]
    loadedPlugins := [("x", PluginSlot.plugin (PluginState.create "x" { module := some "main" }))] }

/-! ## Theorems -/

theorem epconcInv_start : EPConcInv EPConc.start := by
  constructor <;> simp [EPConc.start, EPConc.weight]

theorem count_initWait_erase_append (l : List TPC) (pc pc' : TPC)
    (h : pc ≠ TPC.initWait) (h' : pc' ≠ TPC.initWait) :
    ((l.erase pc) ++ [pc']).count TPC.initWait = l.count TPC.initWait := by
  rw [List.count_append, List.count_erase_of_ne (Ne.symm h)]
  simp [List.count_singleton', Ne.symm h']

theorem epconcInv_step (hasInit : Bool) (s : EPConc) (a : EPAct)
    (h : EPConcInv s) : EPConcInv (s.step hasInit a) := by
  obtain ⟨h1, h2⟩ := h
  simp only [EPConc.weight] at h1 h2
  cases a with
  | spawn =>
    simp only [EPConcInv, EPConc.step, EPConc.weight, List.count_append,
      List.count_singleton']
    constructor
    · simpa using h1
    · intro hini
      have := h2 hini
      simp
      omega
  | fin pc =>
    simp only [EPConc.step]
    by_cases hm : pc ∈ s.tasks
    · simp only [hm, if_true]
      cases pc with
      | entry =>
        simp only [EPConc.applyFin]
        cases hb : s.initialized
        · simp only [hb, Bool.false_eq_true, reduceIte]
          simp only [EPConcInv, EPConc.weight]
          rw [count_initWait_erase_append s.tasks TPC.entry TPC.loadWait
            (by decide) (by decide)]
          exact ⟨h1, fun _ => h2 hb⟩
        · simp only [hb, reduceIte]
          simp only [EPConcInv, EPConc.weight]
          rw [count_initWait_erase_append s.tasks TPC.entry TPC.doneT
            (by decide) (by decide)]
          exact ⟨h1, fun hf => by simp [hb] at hf⟩
      | loadWait =>
        simp only [EPConc.applyFin]
        by_cases hc : (s.initialized || !hasInit) = true
        · simp only [hc, reduceIte]
          simp only [EPConcInv, EPConc.weight]
          rw [count_initWait_erase_append s.tasks TPC.loadWait TPC.doneT
            (by decide) (by decide)]
          exact ⟨h1, fun hf => by simp at hf⟩
        · have hb : s.initialized = false := by
            cases hx : s.initialized
            · rfl
            · simp [hx] at hc
          have := h2 hb
          simp only [Bool.not_eq_true] at hc
          simp only [hc, Bool.false_eq_true, reduceIte]
          simp only [EPConcInv, EPConc.weight, List.count_append,
            List.count_erase_of_ne (show TPC.initWait ≠ TPC.loadWait by decide),
            List.count_singleton']
          refine ⟨?_, fun hf => by simp at hf⟩
          simp
          omega
      | initWait =>
        have hpos : 0 < s.tasks.count TPC.initWait := List.count_pos_iff.mpr hm
        simp only [EPConc.applyFin, EPConcInv, EPConc.weight, List.count_append,
          List.count_erase_self, List.count_singleton']
        have hb : s.initialized = true := by
          cases hx : s.initialized
          · have := h2 hx; omega
          · rfl
        refine ⟨?_, fun hf => by simp [hb] at hf⟩
        simp
        omega
      | doneT =>
        simp only [EPConc.applyFin]
        exact ⟨h1, h2⟩
    · simp only [hm, if_false]; exact ⟨h1, h2⟩
  | fail pc =>
    simp only [EPConc.step]
    by_cases hm : pc ∈ s.tasks
    · simp only [hm, if_true]
      cases pc with
      | entry => exact ⟨h1, h2⟩
      | loadWait =>
        simp only [EPConcInv, EPConc.weight]
        rw [count_initWait_erase_append s.tasks TPC.loadWait TPC.doneT
          (by decide) (by decide)]
        exact ⟨h1, h2⟩
      | initWait =>
        have hpos : 0 < s.tasks.count TPC.initWait := List.count_pos_iff.mpr hm
        simp only [EPConcInv, EPConc.weight, List.count_append,
          List.count_erase_self, List.count_singleton']
        constructor
        · simp; omega
        · intro hf
          have := h2 hf
          simp
          omega
      | doneT => exact ⟨h1, h2⟩
    · simp only [hm, if_false]; exact ⟨h1, h2⟩

theorem epconcInv_run (hasInit : Bool) (acts : List EPAct) :
    EPConcInv (EPConc.run hasInit acts) := by
  have key : ∀ (l : List EPAct) (s : EPConc), EPConcInv s →
      EPConcInv (l.foldl (EPConc.step hasInit) s) := by
    intro l
    induction l with
    | nil => intro s hs; exact hs
    | cons a rest ih => intro s hs; exact ih _ (epconcInv_step hasInit s a hs)
  exact key acts EPConc.start epconcInv_start

/-- Claim C2: for every extension point, across any sequence of
`connect` calls targeting it — including interleaved concurrent calls —
the configured initializer function is executed at most once: every
schedule of call arrivals, import resolutions and import failures ends
with at most one initializer invocation. -/
theorem claim_C2_initializer_at_most_once (hasInit : Bool) (acts : List EPAct) :
    (EPConc.run hasInit acts).initRuns ≤ 1 := by
  have h := (epconcInv_run hasInit acts).1
  simp only [EPConc.weight] at h
  omega

theorem regExtSeq_pending (c : IExtensionJSON) (m : Nat) :
    ∀ (s : RegState) (q : List Nat), s.points.lookup c.point = none →
      s.pending = [(c.point, q)] →
      regExtSeq c m s =
        ({ s with
            pending := [(c.point, q ++ List.range' s.nextExt m)]
            nextExt := s.nextExt + m }, List.replicate m true) := by
  induction m with
  | zero =>
    intro s q hpt hpend
    simp [regExtSeq, ← hpend]
  | succ m ih =>
    intro s q hpt hpend
    have hstep : s.loadExtension c =
        ({ s with
            pending := [(c.point, q ++ [s.nextExt])]
            nextExt := s.nextExt + 1 }, true) := by
      simp [RegState.loadExtension, hpt, hpend, mapSet, List.lookup]
    simp only [regExtSeq, hstep]
    rw [ih _ (q ++ [s.nextExt]) (by simpa using hpt) (by simp)]
    simp [List.range'_succ s.nextExt m 1, List.replicate_succ]
    omega

theorem regExtSeq_connected (c : IExtensionJSON) (m : Nat) :
    ∀ (s : RegState), (s.points.lookup c.point).isSome →
      regExtSeq c m s =
        ({ s with
            connectLog := s.connectLog ++ (List.range' s.nextExt m).map (fun t => (c.point, t))
            nextExt := s.nextExt + m }, List.replicate m false) := by
  induction m with
  | zero =>
    intro s hpt
    simp [regExtSeq]
  | succ m ih =>
    intro s hpt
    obtain ⟨ep, hep⟩ := Option.isSome_iff_exists.mp hpt
    have hstep : s.loadExtension c =
        ({ s with
            connectLog := s.connectLog ++ [(c.point, s.nextExt)]
            nextExt := s.nextExt + 1 }, false) := by
      simp [RegState.loadExtension, hep]
    simp only [regExtSeq, hstep]
    rw [ih _ (by simpa using hpt)]
    simp [List.range'_succ s.nextExt m 1, List.replicate_succ]
    omega

/-- Claim C1: registering extensions whose target point is not yet in
`allExtensionPoints` buffers them in the pending queue, each returning
an already-resolved future; registering the point afterwards removes the
queue and connects every buffered extension in original arrival order,
and extensions registered after the point connect immediately — so for
any split of n extensions around the point registration, all n end up
connected exactly once, in arrival order. -/
theorem claim_C1_order_independence (pcfg : IExtensionPointJSON) (ecfg : IExtensionJSON) (k j : Nat)
    (hp : ecfg.point = pcfg.id) :
    (pointExtSchedule pcfg ecfg k j).1.connectLog
        = (List.range (k + j)).map (fun t => (pcfg.id, t)) ∧
    ((pointExtSchedule pcfg ecfg k j).1.pending.lookup pcfg.id = none ∧
     (pointExtSchedule pcfg ecfg k j).2.1 = List.replicate k true ∧
     (pointExtSchedule pcfg ecfg k j).2.2 = List.replicate j false) := by
  cases k with
  | zero =>
    have h1 : regExtSeq ecfg 0 RegState.start = (RegState.start, []) := rfl
    have h2 : RegState.loadExtensionPoint pcfg RegState.start =
        { points := [(pcfg.id, EPState.create pcfg)], pending := [],
          connectLog := [], nextExt := 0 } := by
      simp [RegState.loadExtensionPoint, RegState.start, mapSet]
    have h3 := regExtSeq_connected ecfg j
      { points := [(pcfg.id, EPState.create pcfg)], pending := [],
        connectLog := [], nextExt := 0 }
      (by simp [hp, List.lookup])
    simp only [pointExtSchedule, h1, h2, h3]
    refine ⟨?_, ?_, ?_, ?_⟩
    · simp [List.range_eq_range', hp]
    · simp [List.lookup]
    · rfl
    · trivial
  | succ m =>
    have hstep : RegState.start.loadExtension ecfg =
        ({ points := [], pending := [(ecfg.point, [0])], connectLog := [], nextExt := 1 }, true) := by
      simp [RegState.loadExtension, RegState.start, mapSet]
    have h1 := regExtSeq_pending ecfg m
      { points := [], pending := [(ecfg.point, [0])], connectLog := [], nextExt := 1 }
      [0] (by simp [List.lookup]) rfl
    have hL : ([0] ++ List.range' 1 m : List Nat) = List.range' 0 (m + 1) := by
      rw [List.range'_succ 0 m 1]
      simp
    have h2 : RegState.loadExtensionPoint pcfg
        { points := [], pending := [(ecfg.point, List.range' 0 (m + 1))],
          connectLog := [], nextExt := 1 + m } =
        { points := [(pcfg.id, EPState.create pcfg)], pending := [],
          connectLog := (List.range' 0 (m + 1)).map (fun t => (pcfg.id, t)),
          nextExt := 1 + m } := by
      simp [RegState.loadExtensionPoint, mapSet, mapDelete, hp, List.lookup]
    have h3 := regExtSeq_connected ecfg j
      { points := [(pcfg.id, EPState.create pcfg)], pending := [],
        connectLog := (List.range' 0 (m + 1)).map (fun t => (pcfg.id, t)),
        nextExt := 1 + m }
      (by simp [hp, List.lookup])
    have happ : (List.range' 0 (m + 1) ++ List.range' (1 + m) j : List Nat)
        = List.range' 0 (m + 1 + j) := by
      have h := List.range'_append 0 (m + 1) j 1
      simp at h
      rw [Nat.add_comm 1 m, h, Nat.add_comm j (m + 1)]
    simp only [pointExtSchedule, regExtSeq, hstep]
    simp only [h1, hL, h2, h3]
    refine ⟨?_, ?_, ?_, ?_⟩
    · simp only [hp]
      rw [← List.map_append, happ, List.range_eq_range']
    · simp [List.lookup]
    · rfl
    · trivial

theorem loadDataRun_skip (env : SystemEnv) (e : ExtensionState)
    (h : jsTruthy e.data = false) : e.loadDataRun env = ([], .ok (), e) := by
  simp [ExtensionState.loadDataRun, h]

theorem loadObjectRun_skip (env : SystemEnv) (e : ExtensionState)
    (h : jsTruthy e.loader = false) : e.loadObjectRun env = ([], .ok (), e) := by
  simp [ExtensionState.loadObjectRun, h]

theorem loadDataRun_loader (env : SystemEnv) (e : ExtensionState) :
    ((e.loadDataRun env).2.2).loader = e.loader := by
  unfold ExtensionState.loadDataRun
  by_cases h : jsTruthy e.data
  · cases henv : env (Request.imp (jsStr e.data)) with
    | error m => simp [h, henv]
    | ok v =>
      cases hext : e.extension with
      | none => simp [h, henv, hext]
      | some c => simp [h, henv, hext]
  · simp [h]

theorem loadDataRun_object (env : SystemEnv) (e : ExtensionState) :
    ((e.loadDataRun env).2.2).extension.map Contribution.object
      = e.extension.map Contribution.object := by
  unfold ExtensionState.loadDataRun
  by_cases h : jsTruthy e.data
  · cases henv : env (Request.imp (jsStr e.data)) with
    | error m => simp [h, henv]
    | ok v =>
      cases hext : e.extension with
      | none => simp [h, henv, hext]
      | some c => simp [h, henv, hext]
  · simp [h]

theorem loadObjectRun_data (env : SystemEnv) (e : ExtensionState) :
    ((e.loadObjectRun env).2.2).extension.map Contribution.data
      = e.extension.map Contribution.data := by
  unfold ExtensionState.loadObjectRun
  by_cases h : jsTruthy e.loader
  · cases henv : env (Request.imp (jsStr e.module)) with
    | error m => simp [h, henv]
    | ok v =>
      cases henv2 : env (Request.callLoader (jsStr e.module) (jsStr e.loader)) with
      | error m => simp [h, henv, henv2]
      | ok w =>
        cases hext : e.extension with
        | none => simp [h, henv, henv2, hext]
        | some c => simp [h, henv, henv2, hext]
  · simp [h]

/-- Claim C6: Extension.load resolves the data and object fields
independently and concurrently. -/
theorem claim_C6_load_resolves_independently (opts : IExtensionJSON) (env : SystemEnv) :
    (opts.loader = none →
      ((ExtensionState.create opts).loadRun env).objTrace = [] ∧
      ∀ c, ((ExtensionState.create opts).loadRun env).result = .ok (some c) →
        c.object = none) ∧
    (opts.data = none →
      ((ExtensionState.create opts).loadRun env).dataTrace = [] ∧
      ∀ c, ((ExtensionState.create opts).loadRun env).result = .ok (some c) →
        c.data = none) ∧
    (jsTruthy opts.data = true → jsTruthy opts.loader = true →
      ((ExtensionState.create opts).loadRun env).issuedFirst
        = [Request.imp (jsStr opts.data), Request.imp (jsStr opts.module)]) := by
  refine ⟨fun hl => ?_, fun hd => ?_, fun hd hl => ?_⟩
  · have hltr : jsTruthy (ExtensionState.create opts).loader = false := by
      simp [ExtensionState.create, hl, jsTruthy]
    have hl2 : jsTruthy (((ExtensionState.create opts).loadDataRun env).2.2).loader = false := by
      rw [loadDataRun_loader]; exact hltr
    have ho := loadObjectRun_skip env (((ExtensionState.create opts).loadDataRun env).2.2) hl2
    have hobj := loadDataRun_object env (ExtensionState.create opts)
    simp only [ExtensionState.loadRun, ho]
    constructor
    · trivial
    · intro c hc
      cases hres : ((ExtensionState.create opts).loadDataRun env).2.1 with
      | error m => simp [hres] at hc
      | ok u =>
        simp only [hres] at hc
        simp only [Except.ok.injEq] at hc
        rw [hc] at hobj
        simp [ExtensionState.create] at hobj
        exact hobj
  · have hdtr : jsTruthy (ExtensionState.create opts).data = false := by
      simp [ExtensionState.create, hd, jsTruthy]
    have hdskip := loadDataRun_skip env (ExtensionState.create opts) hdtr
    have hdata := loadObjectRun_data env (ExtensionState.create opts)
    simp only [ExtensionState.loadRun, hdskip]
    constructor
    · trivial
    · intro c hc
      cases hres : ((ExtensionState.create opts).loadObjectRun env).2.1 with
      | error m => simp [hres] at hc
      | ok u =>
        simp only [hres] at hc
        simp only [Except.ok.injEq] at hc
        rw [hc] at hdata
        simp [ExtensionState.create] at hdata
        exact hdata
  · simp [ExtensionState.loadRun, ExtensionState.create, hd, hl]

theorem initialize_extension (env : SystemEnv) (e : ExtensionState) :
    ((e.initializeExt env).2.2).extension = none := by
  unfold ExtensionState.initializeExt
  by_cases h : jsTruthy ({ e with extension := none } : ExtensionState).initializer
  · cases henv : env (Request.imp (jsStr ({ e with extension := none } : ExtensionState).module)) with
    | error m => simp [h, henv]
    | ok v =>
      cases henv2 : env (Request.callInitializer
          (jsStr ({ e with extension := none } : ExtensionState).module)
          (jsStr ({ e with extension := none } : ExtensionState).initializer)) with
      | error m => simp [h, henv, henv2]
      | ok w => by_cases hdisp : w.hasDispose <;> simp [h, henv, henv2, hdisp]
  · simp [h]

theorem initialize_config_fields (env : SystemEnv) (e : ExtensionState) :
    ((e.initializeExt env).2.2).data = e.data ∧
    ((e.initializeExt env).2.2).loader = e.loader ∧
    ((e.initializeExt env).2.2).module = e.module := by
  unfold ExtensionState.initializeExt
  by_cases h : jsTruthy ({ e with extension := none } : ExtensionState).initializer
  · cases henv : env (Request.imp (jsStr ({ e with extension := none } : ExtensionState).module)) with
    | error m => simp [h, henv]
    | ok v =>
      cases henv2 : env (Request.callInitializer
          (jsStr ({ e with extension := none } : ExtensionState).module)
          (jsStr ({ e with extension := none } : ExtensionState).initializer)) with
      | error m => simp [h, henv, henv2]
      | ok w => by_cases hdisp : w.hasDispose <;> simp [h, henv, henv2, hdisp]
  · simp [h]

theorem loadRun_skip_both (env : SystemEnv) (e : ExtensionState)
    (hd : jsTruthy e.data = false) (hl : jsTruthy e.loader = false) :
    (e.loadRun env).result = .ok e.extension := by
  have h1 := loadDataRun_skip env e hd
  simp only [ExtensionState.loadRun, h1]
  have h2 := loadObjectRun_skip env e hl
  simp only [h2]

theorem loadRun_null_error (env : SystemEnv) (e : ExtensionState)
    (hnull : e.extension = none)
    (h : (jsTruthy e.data || jsTruthy e.loader) = true) :
    ∃ m, (e.loadRun env).result = .error m := by
  by_cases hd : jsTruthy e.data
  · have hdr : ∃ m e₂, e.loadDataRun env = ([Request.imp (jsStr e.data)], .error m, e₂) := by
      unfold ExtensionState.loadDataRun
      cases henv : env (Request.imp (jsStr e.data)) with
      | error m => exact ⟨m, e, by simp [hd, henv]⟩
      | ok v => exact ⟨"TypeError: cannot set data of null", e, by simp [hd, henv, hnull]⟩
    obtain ⟨m, e₂, hm⟩ := hdr
    refine ⟨m, ?_⟩
    simp [ExtensionState.loadRun, hm]
  · have hd2 : jsTruthy e.data = false := by simpa using hd
    have hl : jsTruthy e.loader = true := by
      cases hx : jsTruthy e.loader
      · rw [hd2, hx] at h; cases h
      · rfl
    have h1 := loadDataRun_skip env e hd2
    have hor : ∃ m e₂, (e.loadObjectRun env).2 = (.error m, e₂) := by
      unfold ExtensionState.loadObjectRun
      cases henv : env (Request.imp (jsStr e.module)) with
      | error m => exact ⟨m, e, by simp [hl, henv]⟩
      | ok v =>
        cases henv2 : env (Request.callLoader (jsStr e.module) (jsStr e.loader)) with
        | error m => exact ⟨m, e, by simp [hl, henv, henv2]⟩
        | ok w => exact ⟨"TypeError: cannot set object of null", e, by simp [hl, henv, henv2, hnull]⟩
    obtain ⟨m, e₂, hm⟩ := hor
    refine ⟨m, ?_⟩
    simp [ExtensionState.loadRun, h1, hm]

/-- Claim C10: Extension.initialize nulls the stored contribution first:
afterwards load yields null when nothing is configured and fails when a
configured resolution writes into the nulled contribution. -/
theorem claim_C10_initialize_nulls_contribution (opts : IExtensionJSON) (env : SystemEnv) :
    (((ExtensionState.create opts).initializeExt env).2.2).extension = none ∧
    (jsTruthy opts.data = false → jsTruthy opts.loader = false →
      ((((ExtensionState.create opts).initializeExt env).2.2).loadRun env).result = .ok none) ∧
    ((jsTruthy opts.data || jsTruthy opts.loader) = true →
      ∃ m, ((((ExtensionState.create opts).initializeExt env).2.2).loadRun env).result = .error m) := by
  have hnull := initialize_extension env (ExtensionState.create opts)
  obtain ⟨hfd, hfl, hfm⟩ := initialize_config_fields env (ExtensionState.create opts)
  have hcd : (ExtensionState.create opts).data = opts.data := rfl
  have hcl : (ExtensionState.create opts).loader = opts.loader := rfl
  refine ⟨hnull, fun hd hl => ?_, fun h => ?_⟩
  · have := loadRun_skip_both env (((ExtensionState.create opts).initializeExt env).2.2)
      (by rw [hfd, hcd]; exact hd) (by rw [hfl, hcl]; exact hl)
    rw [this, hnull]
  · exact loadRun_null_error env _ hnull (by rw [hfd, hcd, hfl, hcl]; exact h)

/-- Claim C7 counterexample: at the name toString — not an own key of
either map of the empty manager state — the prototype-chain lookup
finds the inherited, truthy `Object.prototype.toString`, so loadPlugin
neither fails with the Unknown-plugin error nor leaves the maps
unchanged (it stores the inherited member under loadedPlugins before
`plugin.load()` throws a TypeError), and unloadPlugin is not a no-op
(`plugin.dispose()` throws a TypeError). -/
theorem claim_C7_counterexample :
    List.lookup "toString" (MgrState.mk [] []).availablePlugins = none ∧
    (MgrState.loadPlugin "toString" regEnvOk (MgrState.mk [] [])).2
      ≠ .error "Plugin not in registry" ∧
    (MgrState.loadPlugin "toString" regEnvOk (MgrState.mk [] [])).1.loadedPlugins ≠ [] ∧
    List.lookup "toString" (MgrState.mk [] []).loadedPlugins = none ∧
    (MgrState.unloadPlugin "toString" (MgrState.mk [] [])).2 ≠ .ok () := by
  decide

/-- Claim C7 (amended): for every name whose property read on
availablePlugins yields undefined — i.e. neither an own key nor an
`Object.prototype` member name — loadPlugin fails with the
Unknown-plugin error before any mutation, leaving the state unchanged;
and, independently, for every name whose property read on loadedPlugins
yields undefined, unloadPlugin is a no-op and not an error.  The two
parts have independent hypotheses: the first covers names present only
in loadedPlugins (a double load), the second names present only in
availablePlugins (an unload before load). -/
theorem claim_C7_unknown_load_errors_unload_noop (name : String) (env : RegEnv)
    (s : MgrState) :
    (jsGetProp s.availablePlugins name = .missing →
      s.loadPlugin name env = (s, .error "Plugin not in registry")) ∧
    (jsGetProp s.loadedPlugins name = .missing →
      s.unloadPlugin name = (s, .ok ())) := by
  constructor
  · intro h1
    simp [MgrState.loadPlugin, h1]
  · intro h2
    simp [MgrState.unloadPlugin, h2]

theorem claim_C7_witness :
    MgrState.loadPlugin "x" regEnvOk mgrMixed
      = (mgrMixed, .error "Plugin not in registry") ∧
    MgrState.unloadPlugin "y" mgrMixed = (mgrMixed, .ok ()) :=
  ⟨(claim_C7_unknown_load_errors_unload_noop "x" regEnvOk mgrMixed).1 (by decide),
   (claim_C7_unknown_load_errors_unload_noop "y" regEnvOk mgrMixed).2 (by decide)⟩

/-- Claim C8: per-entry failures are swallowed: load resolves, and the
registration list is the same whatever the per-entry outcomes. -/
theorem claim_C8_entry_failures_isolated (p : PluginState) (envA envB : RegEnv) :
    (p.load envA).2.2 = .ok () ∧
    (p.load envA).2.1 = (p.load envB).2.1 ∧
    (p.load envA).2.1.length
      = (p.extensionPoints.getD []).length + (p.extensions.getD []).length := by
  refine ⟨rfl, rfl, ?_⟩
  simp [PluginState.load]

/-- Claim C3 refutation witness: Plugin.load never reaches _initialize. -/
theorem claim_C3_load_skips_initialize :
    (pluginFoo.load regEnvOk).2.1
      = [RegEvent.regPoint { id := "foo:point", receiver := "recv", module := some "foo/main" }] ∧
    (pluginFoo.load regEnvOk).1.initRuns = 0 ∧
    (pluginFoo.load regEnvOk).1.extensionPoints
      = some [{ id := "foo:point", receiver := "recv", module := some "foo/main" }] ∧
    (pluginFoo.load regEnvOk).1.extensionPoints ≠ some [] := by
  refine ⟨rfl, rfl, rfl, by decide⟩

/-- Claim C4 refutation witness: after a completed load the config lists
are not empty and a second load registers the entry again. -/
theorem claim_C4_second_load_reregisters :
    ((pluginBar.load regEnvOk).1).extensionPoints
      = some [{ id := "bar:point", receiver := "recv", module := some "bar/main" }] ∧
    ((pluginBar.load regEnvOk).1).extensionPoints ≠ some [] ∧
    (((pluginBar.load regEnvOk).1).load regEnvOk).2.1
      = [RegEvent.regPoint { id := "bar:point", receiver := "recv", module := some "bar/bar/main" }] := by
  refine ⟨rfl, by decide, rfl⟩

/-- Claim C5 refutation witness: a failed initializer still marks the
point initialized, so a retry connect does not re-attempt it. -/
theorem claim_C5_failed_initializer_marked_done :
    (EPState.connect envInitFails epFixture extFixture).1 = .error "boom" ∧
    (EPState.connect envInitFails epFixture extFixture).2.1.initialized = true ∧
    (EPState.connect envInitFails epFixture extFixture).2.1.initCompleted = 0 ∧
    (EPState.connect envInitFails
        (EPState.connect envInitFails epFixture extFixture).2.1 extFixture).1 = .ok () ∧
    (EPState.connect envInitFails
        (EPState.connect envInitFails epFixture extFixture).2.1 extFixture).2.1.initCompleted = 0 :=
  ⟨rfl, rfl, rfl, rfl, rfl⟩

/-- Claim C9 refutation witness: a re-fetch does not skip an
already-available name and replaces its Plugin. -/
theorem claim_C9_refetch_does_not_skip :
    getPluginNames "" npmFixture mgrFixture = ["foo"] ∧
    (addPackage "foo" { main := some "fresh", phosphorPlugin := some {} }
        mgrFixture.availablePlugins).lookup "foo"
      = some (PluginState.create "foo" { module := some "fresh" }) ∧
    (addPackage "foo" { main := some "fresh", phosphorPlugin := some {} }
        mgrFixture.availablePlugins).lookup "foo"
      ≠ mgrFixture.availablePlugins.lookup "foo" := by
  refine ⟨by decide, rfl, by decide⟩

theorem claim_C1_witness :
    (pointExtSchedule { id := "my-foo:point", receiver := "recv" }
        { point := "my-foo:point" } 2 1).1.connectLog
      = (List.range (2 + 1)).map (fun t => ("my-foo:point", t)) ∧
    ((pointExtSchedule { id := "my-foo:point", receiver := "recv" }
        { point := "my-foo:point" } 2 1).1.pending.lookup "my-foo:point" = none ∧
     (pointExtSchedule { id := "my-foo:point", receiver := "recv" }
        { point := "my-foo:point" } 2 1).2.1 = List.replicate 2 true ∧
     (pointExtSchedule { id := "my-foo:point", receiver := "recv" }
        { point := "my-foo:point" } 2 1).2.2 = List.replicate 1 false) :=
  claim_C1_order_independence { id := "my-foo:point", receiver := "recv" }
    { point := "my-foo:point" } 2 1 rfl

theorem claim_C6_witness :
    (((ExtensionState.create { point := "p", data := some "d" }).loadRun envAllOk).objTrace = [] ∧
      ∀ c, ((ExtensionState.create { point := "p", data := some "d" }).loadRun envAllOk).result
          = .ok (some c) → c.object = none) ∧
    (((ExtensionState.create { point := "p", loader := some "l", module := some "m" }).loadRun
          envAllOk).dataTrace = [] ∧
      ∀ c, ((ExtensionState.create { point := "p", loader := some "l", module := some "m" }).loadRun
          envAllOk).result = .ok (some c) → c.data = none) ∧
    ((ExtensionState.create
        { point := "p", loader := some "l", data := some "d", module := some "m" }).loadRun
          envAllOk).issuedFirst = [Request.imp "d", Request.imp "m"] :=
  ⟨(claim_C6_load_resolves_independently { point := "p", data := some "d" } envAllOk).1 rfl,
   (claim_C6_load_resolves_independently
      { point := "p", loader := some "l", module := some "m" } envAllOk).2.1 rfl,
   (claim_C6_load_resolves_independently
      { point := "p", loader := some "l", data := some "d", module := some "m" } envAllOk).2.2
      (by decide) (by decide)⟩

theorem claim_C10_witness :
    (((ExtensionState.create { point := "p" }).initializeExt envAllOk).2.2).extension = none ∧
    ((((ExtensionState.create { point := "p" }).initializeExt envAllOk).2.2).loadRun
        envAllOk).result = .ok none ∧
    ∃ m, ((((ExtensionState.create { point := "p", data := some "d" }).initializeExt
        envAllOk).2.2).loadRun envAllOk).result = .error m :=
  ⟨(claim_C10_initialize_nulls_contribution { point := "p" } envAllOk).1,
   (claim_C10_initialize_nulls_contribution { point := "p" } envAllOk).2.1 rfl rfl,
   (claim_C10_initialize_nulls_contribution { point := "p", data := some "d" } envAllOk).2.2
     (by decide)⟩
